import Mathlib

/-!
Shallow embedding of the kp-backend trading-records application
(SQLAlchemy models in `models.py`, FastAPI handlers in `routers/`),
together with theorems settling the specification claims about the
ledger/balance computation, the purchase-expense linker, sale creation
and update, buyer deletion, and the analytics aggregations.

Money amounts (Python floats holding currency values) are modelled as
rationals; calendar dates as year/month/day triples ordered
lexicographically; SQL queries over tables as list operations over the
in-memory table contents, in insertion order; Python's stable
`list.sort` / SQL `ORDER BY` as Mathlib's stable `List.insertionSort`.
-/

namespace KP

/-- Calendar date (Python `datetime.date`): year, month, day. -/
structure Date where
  year : Nat
  month : Nat
  day : Nat
deriving DecidableEq, Repr

/-- Lexicographic `≤` on dates, as the database compares `Date` columns. -/
def Date.ble (a b : Date) : Bool :=
  a.year < b.year ||
    (a.year == b.year &&
      (a.month < b.month || (a.month == b.month && a.day ≤ b.day)))

/-- Embeds `payment_type` enum of `models.py`. -/
inductive PaymentType where
  | PAID
  | PARTIAL
  | CREDIT
deriving DecidableEq, Repr

/-- Embeds `.value` of the `PaymentType` enum. -/
def PaymentType.value : PaymentType → String
  | .PAID => "Paid"
  | .PARTIAL => "Partial"
  | .CREDIT => "Credit"

/-- Embeds `ExpenseCategory` enum of `models.py`. -/
inductive ExpenseCategory where
  | RENT
  | ELECTRICITY
  | WATER
  | LABOUR
  | TRANSPORT
  | TAX
  | OTHER
deriving DecidableEq, Repr

/-- Row of the `buyers` table. -/
structure Buyer where
  id : Nat
  name : String
  phone : Option String
  address : Option String
  notes : Option String
  opening_balance : ℚ
deriving DecidableEq, Repr

/-- Row of the `purchases` table. -/
structure Purchase where
  id : Nat
  date : Date
  seller_name : String
  seller_phone : Option String
  pickup_location : Option String
  transport_service : Option String
  transport_cost : ℚ
  quantity : ℚ
  unit : String
  price_per_unit : ℚ
  total_purchase_cost : ℚ
  notes : Option String
deriving DecidableEq, Repr

/-- Row of the `sales` table. -/
structure Sale where
  id : Nat
  date : Date
  buyer_id : Nat
  payment_type : PaymentType
  payment_received_now : ℚ
  total_amount : ℚ
  notes : Option String
deriving DecidableEq, Repr

/-- Row of the `sale_items` table. -/
structure SaleItem where
  id : Nat
  sale_id : Nat
  product_type_id : Nat
  quantity : ℚ
  unit : String
  price_per_unit : ℚ
  total_price : ℚ
deriving DecidableEq, Repr

/-- Row of the `payments` table. -/
structure Payment where
  id : Nat
  date : Date
  buyer_id : Nat
  amount : ℚ
  payment_method : String
  notes : Option String
deriving DecidableEq, Repr

/-- Row of the `expenses` table. -/
structure Expense where
  id : Nat
  date : Date
  category : ExpenseCategory
  amount : ℚ
  description : Option String
deriving DecidableEq, Repr

/-- The relational store: table contents in insertion order plus
autoincrement counters for the tables the modelled handlers insert into. -/
structure DB where
  buyers : List Buyer
  purchases : List Purchase
  sales : List Sale
  sale_items : List SaleItem
  payments : List Payment
  expenses : List Expense
  nextPurchaseId : Nat
  nextSaleId : Nat
  nextSaleItemId : Nat
  nextPaymentId : Nat
  nextExpenseId : Nat
deriving DecidableEq, Repr

/-- Sum of a rational-valued field over the rows of a table. -/
def sumBy (l : List α) (f : α → ℚ) : ℚ := (l.map f).sum

/-- The buyer's `sales` relationship: all `Sale` rows with this `buyer_id`. -/
def buyerSales (db : DB) (bid : Nat) : List Sale :=
  db.sales.filter (fun s => s.buyer_id == bid)

/-- The buyer's `payments` relationship: all `Payment` rows with this `buyer_id`. -/
def buyerPayments (db : DB) (bid : Nat) : List Payment :=
  db.payments.filter (fun p => p.buyer_id == bid)

/-- Embeds `Buyer.total_sales` property (`models.py`). -/
def Buyer.total_sales (db : DB) (b : Buyer) : ℚ :=
  sumBy (buyerSales db b.id) (fun s => s.total_amount)

/-- Embeds `Buyer.total_payments` property (`models.py`). -/
def Buyer.total_payments (db : DB) (b : Buyer) : ℚ :=
  sumBy (buyerPayments db b.id) (fun p => p.amount)

/-- Embeds `Buyer.outstanding_balance` property (`models.py`):
`opening_balance + total_sales - total_payments`. -/
def Buyer.outstanding_balance (db : DB) (b : Buyer) : ℚ :=
  b.opening_balance + b.total_sales db - b.total_payments db

/-- Does the character list start with the pattern `pat`? -/
def startsWithL : List Char → List Char → Bool
  | [], _ => true
  | _ :: _, [] => false
  | a :: as, b :: bs => a == b && startsWithL as bs

/-- Does the character list contain `pat` as a contiguous sublist?
Models SQL `LIKE '%pat%'` and Python `in` on strings. -/
def containsL (pat : List Char) : List Char → Bool
  | [] => pat.isEmpty
  | c :: cs => startsWithL pat (c :: cs) || containsL pat cs

/-- Embeds `pat` occurs as a substring of `s` (SQL `LIKE '%pat%'`). -/
def strContains (s pat : String) : Bool := containsL pat.data s.data

/-- Replace the first element satisfying `p` by its image under `f`
(mutating the row object returned by `query.filter(...).first()`). -/
def updateFirst (p : α → Bool) (f : α → α) : List α → List α
  | [] => []
  | a :: as => if p a then f a :: as else a :: updateFirst p f as

/-- Remove the first element satisfying `p`
(`db.delete(...)` on the row returned by `query.filter(...).first()`). -/
def removeFirst (p : α → Bool) : List α → List α
  | [] => []
  | a :: as => if p a then as else a :: removeFirst p as

/-- Entry of the simplified buyers list (`BuyerListResponse`). -/
structure BuyerListEntry where
  id : Nat
  name : String
  phone : Option String
  outstanding_balance : ℚ
deriving DecidableEq, Repr

/-- Embeds `ORDER BY buyers.name`: stable sort of the buyers table by name. -/
def sortBuyersByName (l : List Buyer) : List Buyer :=
  l.insertionSort (fun a b => a.name ≤ b.name)

/-- Embeds `get_buyers_list` (`routers/buyers.py`): one entry per buyer, ordered by
name, with the outstanding balance recomputed inline from the buyer's
sales and payments. -/
def get_buyers_list (db : DB) : List BuyerListEntry :=
  (sortBuyersByName db.buyers).map (fun buyer =>
    let total_sales := sumBy (buyerSales db buyer.id) (fun s => s.total_amount)
    let total_payments := sumBy (buyerPayments db buyer.id) (fun p => p.amount)
    let outstanding := buyer.opening_balance + total_sales - total_payments
    { id := buyer.id, name := buyer.name, phone := buyer.phone,
      outstanding_balance := outstanding })

/-- Embeds `get_buyer` (`routers/buyers.py`): `query.filter(id == buyer_id).first()`,
404 (`none`) when absent. -/
def get_buyer (db : DB) (buyer_id : Nat) : Option Buyer :=
  db.buyers.find? (fun b => b.id == buyer_id)

/-- Outcome of `delete_buyer`. -/
inductive DeleteBuyerStatus where
  | notFound
  | conflict
  | deleted
deriving DecidableEq, Repr

/-- Embeds `delete_buyer` (`routers/buyers.py`): 404 when the buyer does not exist;
400 (conflict), raised before any mutation, when the buyer has sales or
payments; otherwise the buyer row is deleted. -/
def delete_buyer (db : DB) (buyer_id : Nat) : DB × DeleteBuyerStatus :=
  match db.buyers.find? (fun b => b.id == buyer_id) with
  | none => (db, .notFound)
  | some b =>
    if !(buyerSales db b.id).isEmpty || !(buyerPayments db b.id).isEmpty then
      (db, .conflict)
    else
      ({ db with buyers := removeFirst (fun x => x.id == buyer_id) db.buyers }, .deleted)

/-- An in-memory transaction dict built by `get_buyer_ledger`. -/
structure Txn where
  date : Date
  type : String
  description : String
  debit : ℚ
  credit : ℚ
deriving DecidableEq, Repr

/-- Embeds `LedgerEntry` response schema. -/
structure LedgerEntry where
  date : Date
  type : String
  description : String
  debit : ℚ
  credit : ℚ
  balance : ℚ
deriving DecidableEq, Repr

/-- Embeds `BuyerLedgerResponse` schema. -/
structure BuyerLedgerResponse where
  buyer : Buyer
  entries : List LedgerEntry
  opening_balance : ℚ
  closing_balance : ℚ
deriving DecidableEq, Repr

/-- The accumulation loop of `get_buyer_ledger`: starting from
`running_balance`, emit one ledger row per transaction with
`balance += debit - credit`. -/
def buildEntries (bal : ℚ) : List Txn → List LedgerEntry
  | [] => []
  | t :: ts =>
    let b := bal + t.debit - t.credit
    { date := t.date, type := t.type, description := t.description,
      debit := t.debit, credit := t.credit, balance := b } :: buildEntries b ts

/-- The transaction dict built from a sale: a debit of its total amount. -/
def mkSaleTxn (sale : Sale) : Txn :=
  { date := sale.date, type := "SALE",
    description := "Sale #" ++ toString sale.id ++ " - " ++ sale.payment_type.value,
    debit := sale.total_amount, credit := 0 }

/-- The transaction dict built from a payment: a credit of its amount. -/
def mkPayTxn (payment : Payment) : Txn :=
  { date := payment.date, type := "PAYMENT",
    description := "Payment - " ++ payment.payment_method,
    debit := 0, credit := payment.amount }

/-- Date-range filter applied independently to sales and payments
(`if start_date: ... if end_date: ...`). -/
def inRange (d : Date) (sd ed : Option Date) : Bool :=
  (match sd with | some s => Date.ble s d | none => true) &&
  (match ed with | some e => Date.ble d e | none => true)

/-- Embeds `get_buyer_ledger` (`routers/buyers.py`): 404 (`none`) for a missing
buyer; otherwise collect the buyer's sales and payments in range, tag them
as debit/credit transactions, sort the merged list by date (stable), fold
the running balance from `opening_balance`, and return the entries with
`closing_balance = opening_balance + Σ sales(range) - Σ payments(range)`. -/
def get_buyer_ledger (db : DB) (buyer_id : Nat) (sd ed : Option Date) :
    Option BuyerLedgerResponse :=
  match db.buyers.find? (fun b => b.id == buyer_id) with
  | none => none
  | some buyer =>
    let sales := ((buyerSales db buyer_id).filter (fun s => inRange s.date sd ed)).insertionSort
      (fun a b => Date.ble a.date b.date)
    let payments := ((buyerPayments db buyer_id).filter (fun p => inRange p.date sd ed)).insertionSort
      (fun a b => Date.ble a.date b.date)
    let txns : List Txn := sales.map mkSaleTxn ++ payments.map mkPayTxn
    let sorted := txns.insertionSort (fun a b => Date.ble a.date b.date)
    let entries := buildEntries buyer.opening_balance sorted
    let total_sales := sumBy sales (fun s => s.total_amount)
    let total_payments := sumBy payments (fun p => p.amount)
    some { buyer := buyer, entries := entries,
           opening_balance := buyer.opening_balance,
           closing_balance := buyer.opening_balance + total_sales - total_payments }

/-- Embeds `PurchaseCreate` request schema. -/
structure PurchaseCreate where
  date : Date
  seller_name : String
  seller_phone : Option String
  pickup_location : Option String
  transport_service : Option String
  transport_cost : ℚ
  quantity : ℚ
  unit : String
  price_per_unit : ℚ
  notes : Option String
deriving DecidableEq, Repr

/-- Embeds `PurchaseUpdate` request schema: a field is `some v` exactly when the
client supplied it (pydantic `exclude_unset`). -/
structure PurchaseUpdate where
  date : Option Date
  seller_name : Option String
  seller_phone : Option (Option String)
  pickup_location : Option (Option String)
  transport_service : Option (Option String)
  transport_cost : Option ℚ
  quantity : Option ℚ
  unit : Option String
  price_per_unit : Option ℚ
  notes : Option (Option String)
deriving DecidableEq, Repr

/-- The auto-generated transport-expense description
`f"Transport cost for purchase from {seller_name}"` plus the optional
`f" ({transport_service})"` suffix. -/
def transportDesc (seller_name : String) (transport_service : Option String) : String :=
  "Transport cost for purchase from " ++ seller_name ++
    (match transport_service with
     | some svc => " (" ++ svc ++ ")"
     | none => "")

/-- The linker's lookup predicate on the expenses table:
`date == purchase.date AND category == TRANSPORT AND
description LIKE '%purchase from {seller_name}%'` (a NULL description
matches no `LIKE` pattern). -/
def linkedExpenseMatch (d : Date) (seller_name : String) (e : Expense) : Bool :=
  e.date == d && e.category == ExpenseCategory.TRANSPORT &&
    (match e.description with
     | some desc => strContains desc ("purchase from " ++ seller_name)
     | none => false)

/-- Embeds `create_purchase` (`routers/purchases.py`): stores
`total_purchase_cost = quantity * price_per_unit + transport_cost` and, when
`transport_cost > 0`, additionally inserts a Transport expense dated at the
purchase's date with amount `transport_cost`. -/
def create_purchase (db : DB) (pc : PurchaseCreate) : DB × Purchase :=
  let total_cost := pc.quantity * pc.price_per_unit + pc.transport_cost
  let p : Purchase :=
    { id := db.nextPurchaseId, date := pc.date, seller_name := pc.seller_name,
      seller_phone := pc.seller_phone, pickup_location := pc.pickup_location,
      transport_service := pc.transport_service, transport_cost := pc.transport_cost,
      quantity := pc.quantity, unit := pc.unit, price_per_unit := pc.price_per_unit,
      total_purchase_cost := total_cost, notes := pc.notes }
  let db1 := { db with purchases := db.purchases ++ [p],
                       nextPurchaseId := db.nextPurchaseId + 1 }
  if pc.transport_cost > 0 then
    let e : Expense :=
      { id := db1.nextExpenseId, date := pc.date,
        category := ExpenseCategory.TRANSPORT, amount := pc.transport_cost,
        description := some (transportDesc pc.seller_name pc.transport_service) }
    ({ db1 with expenses := db1.expenses ++ [e],
                nextExpenseId := db1.nextExpenseId + 1 }, p)
  else
    (db1, p)

/-- The purchase row after `update_purchase` applies the supplied fields and
(when quantity, price or transport cost is supplied) the re-derived
`total_purchase_cost`. -/
def applyPurchaseUpdate (p : Purchase) (u : PurchaseUpdate) : Purchase :=
  let quantity := u.quantity.getD p.quantity
  let price_per_unit := u.price_per_unit.getD p.price_per_unit
  let transport_cost := u.transport_cost.getD p.transport_cost
  let total :=
    if u.quantity.isSome || u.price_per_unit.isSome || u.transport_cost.isSome then
      quantity * price_per_unit + transport_cost
    else p.total_purchase_cost
  { p with
    date := u.date.getD p.date,
    seller_name := u.seller_name.getD p.seller_name,
    seller_phone := u.seller_phone.getD p.seller_phone,
    pickup_location := u.pickup_location.getD p.pickup_location,
    transport_service := u.transport_service.getD p.transport_service,
    transport_cost := transport_cost,
    quantity := quantity,
    unit := u.unit.getD p.unit,
    price_per_unit := price_per_unit,
    total_purchase_cost := total,
    notes := u.notes.getD p.notes }

/-- Embeds `update_purchase` (`routers/purchases.py`): 404 (`none`) for a missing
purchase; otherwise apply the supplied fields (re-deriving
`total_purchase_cost` when quantity/price/transport changed) and, only when
the update touches `transport_cost`, run the expense linker: look up the
first expense matching the *updated* purchase's date/seller, then update it
in place (new cost > 0), delete it (new cost not > 0), create a fresh one
(none found, new cost > 0) or do nothing. -/
def update_purchase (db : DB) (purchase_id : Nat) (u : PurchaseUpdate) :
    Option (DB × Purchase) :=
  match db.purchases.find? (fun p => p.id == purchase_id) with
  | none => none
  | some p =>
    let p1 := applyPurchaseUpdate p u
    let db1 := { db with
      purchases := updateFirst (fun q => q.id == purchase_id) (fun _ => p1) db.purchases }
    match u.transport_cost with
    | none => some (db1, p1)
    | some transport_cost =>
      let pred := linkedExpenseMatch p1.date p1.seller_name
      let refresh : Expense → Expense := fun e =>
        { e with amount := transport_cost,
                 description := some (transportDesc p1.seller_name p1.transport_service) }
      match db1.expenses.find? pred with
      | some _ =>
        if transport_cost > 0 then
          some ({ db1 with expenses := updateFirst pred refresh db1.expenses }, p1)
        else
          some ({ db1 with expenses := removeFirst pred db1.expenses }, p1)
      | none =>
        if transport_cost > 0 then
          let e : Expense :=
            { id := db1.nextExpenseId, date := p1.date,
              category := ExpenseCategory.TRANSPORT, amount := transport_cost,
              description := some (transportDesc p1.seller_name p1.transport_service) }
          some ({ db1 with expenses := db1.expenses ++ [e],
                           nextExpenseId := db1.nextExpenseId + 1 }, p1)
        else
          some (db1, p1)

/-- Embeds `SaleItemCreate` request schema. -/
structure SaleItemCreate where
  product_type_id : Nat
  quantity : ℚ
  unit : String
  price_per_unit : ℚ
deriving DecidableEq, Repr

/-- Embeds `SaleCreate` request schema. -/
structure SaleCreate where
  date : Date
  buyer_id : Nat
  payment_type : PaymentType
  payment_received_now : ℚ
  notes : Option String
  sale_items : List SaleItemCreate
deriving DecidableEq, Repr

/-- Embeds `SaleUpdate` request schema: a field is `some v` exactly when the client
supplied it (pydantic `exclude_unset`). -/
structure SaleUpdate where
  date : Option Date
  buyer_id : Option Nat
  payment_type : Option PaymentType
  payment_received_now : Option ℚ
  notes : Option (Option String)
deriving DecidableEq, Repr

/-- Embeds `create_sale` (`routers/sales.py`): `total_amount` is the sum of
`quantity * price_per_unit` over the submitted items; one `SaleItem` row per
submitted item with `total_price = quantity * price_per_unit`; and when
`payment_received_now > 0` a `Payment` row for the sale's buyer, dated at
the sale's date, with that amount. -/
def create_sale (db : DB) (sc : SaleCreate) : DB × Sale :=
  let total_amount := sumBy sc.sale_items (fun it => it.quantity * it.price_per_unit)
  let sale : Sale :=
    { id := db.nextSaleId, date := sc.date, buyer_id := sc.buyer_id,
      payment_type := sc.payment_type,
      payment_received_now := sc.payment_received_now,
      total_amount := total_amount, notes := sc.notes }
  let items : List SaleItem :=
    (sc.sale_items.enum).map (fun x =>
      { id := db.nextSaleItemId + x.1, sale_id := sale.id,
        product_type_id := x.2.product_type_id, quantity := x.2.quantity,
        unit := x.2.unit, price_per_unit := x.2.price_per_unit,
        total_price := x.2.quantity * x.2.price_per_unit })
  let db1 := { db with
    sales := db.sales ++ [sale],
    sale_items := db.sale_items ++ items,
    nextSaleId := db.nextSaleId + 1,
    nextSaleItemId := db.nextSaleItemId + sc.sale_items.length }
  if sc.payment_received_now > 0 then
    let pay : Payment :=
      { id := db1.nextPaymentId, date := sc.date, buyer_id := sc.buyer_id,
        amount := sc.payment_received_now, payment_method := "Cash",
        notes := some ("Payment for Sale #" ++ toString sale.id) }
    ({ db1 with payments := db1.payments ++ [pay],
                nextPaymentId := db1.nextPaymentId + 1 }, sale)
  else
    (db1, sale)

/-- The sale row after `update_sale` applies the supplied fields
(`setattr` over `exclude_unset` data; `total_amount` is not a
`SaleUpdate` field and is never touched). -/
def applySaleUpdate (s : Sale) (u : SaleUpdate) : Sale :=
  { s with
    date := u.date.getD s.date,
    buyer_id := u.buyer_id.getD s.buyer_id,
    payment_type := u.payment_type.getD s.payment_type,
    payment_received_now := u.payment_received_now.getD s.payment_received_now,
    notes := u.notes.getD s.notes }

/-- Embeds `update_sale` (`routers/sales.py`): 404 (`none`) for a missing sale;
otherwise set exactly the supplied fields on the sale row. No other table
is touched. -/
def update_sale (db : DB) (sale_id : Nat) (u : SaleUpdate) : Option (DB × Sale) :=
  match db.sales.find? (fun s => s.id == sale_id) with
  | none => none
  | some s =>
    let s1 := applySaleUpdate s u
    some ({ db with
      sales := updateFirst (fun t => t.id == sale_id) (fun _ => s1) db.sales }, s1)

/-- Embeds `DashboardSummary` response schema. -/
structure DashboardSummary where
  today_purchases : ℚ
  today_sales : ℚ
  today_expenses : ℚ
  total_purchases : ℚ
  total_sales : ℚ
  total_expenses : ℚ
  total_profit : ℚ
  total_receivable : ℚ
deriving DecidableEq, Repr

/-- Embeds `get_dashboard_summary` (`routers/analytics.py`): today's and all-time
purchase/sale/expense sums, `total_profit = sales - purchases - expenses`,
and `total_receivable` accumulated buyer by buyer from the inline
`opening_balance + Σ sales - Σ payments` computation. -/
def get_dashboard_summary (db : DB) (today : Date) : DashboardSummary :=
  let today_purchases := sumBy (db.purchases.filter (fun p => p.date == today))
    (fun p => p.total_purchase_cost)
  let today_sales := sumBy (db.sales.filter (fun s => s.date == today))
    (fun s => s.total_amount)
  let today_expenses := sumBy (db.expenses.filter (fun e => e.date == today))
    (fun e => e.amount)
  let total_purchases := sumBy db.purchases (fun p => p.total_purchase_cost)
  let total_sales := sumBy db.sales (fun s => s.total_amount)
  let total_expenses := sumBy db.expenses (fun e => e.amount)
  let total_receivable := (db.buyers.map (fun buyer =>
    let total_sales_buyer := sumBy (buyerSales db buyer.id) (fun s => s.total_amount)
    let total_payments_buyer := sumBy (buyerPayments db buyer.id) (fun p => p.amount)
    buyer.opening_balance + total_sales_buyer - total_payments_buyer)).sum
  { today_purchases := today_purchases, today_sales := today_sales,
    today_expenses := today_expenses, total_purchases := total_purchases,
    total_sales := total_sales, total_expenses := total_expenses,
    total_profit := total_sales - total_purchases - total_expenses,
    total_receivable := total_receivable }

/-- The month-decrement loop of `get_monthly_stats`: starting from the
current month, collect `(year, month)` pairs newest first, stepping
`month == 1 ? (year-1, 12) : (year, month-1)`. -/
def monthListRev (y m : Nat) : Nat → List (Nat × Nat)
  | 0 => []
  | n + 1 =>
    (y, m) :: (if m == 1 then monthListRev (y - 1) 12 n else monthListRev y (m - 1) n)

/-- Embeds `strftime("%b")`: abbreviated month name. -/
def monthAbbrev : Nat → String
  | 1 => "Jan" | 2 => "Feb" | 3 => "Mar" | 4 => "Apr"
  | 5 => "May" | 6 => "Jun" | 7 => "Jul" | 8 => "Aug"
  | 9 => "Sep" | 10 => "Oct" | 11 => "Nov" | 12 => "Dec"
  | _ => ""

/-- One row of the `monthly-stats` response. -/
structure MonthlyRow where
  month : String
  purchases : ℚ
  sales : ℚ
  expenses : ℚ
  profit : ℚ
deriving DecidableEq, Repr

/-- Embeds `get_monthly_stats` (`routers/analytics.py`): build the list of the last
`months` calendar months (oldest first), filter each table to
`date >= first day of the oldest month`, group sums by year+month with a
zero default, and emit one labelled row per listed month with
`profit = sales - purchases - expenses`. -/
def get_monthly_stats (db : DB) (today : Date) (months : Nat) : List MonthlyRow :=
  let ml := (monthListRev today.year today.month months).reverse
  match ml with
  | [] => []
  | ym0 :: rest =>
    let start_date : Date := ⟨ym0.1, ym0.2, 1⟩
    (ym0 :: rest).map (fun ym =>
      let inMonth : Date → Bool := fun d =>
        Date.ble start_date d && d.year == ym.1 && d.month == ym.2
      let purchases := sumBy (db.purchases.filter (fun p => inMonth p.date))
        (fun p => p.total_purchase_cost)
      let sales := sumBy (db.sales.filter (fun s => inMonth s.date))
        (fun s => s.total_amount)
      let expenses := sumBy (db.expenses.filter (fun e => inMonth e.date))
        (fun e => e.amount)
      { month := monthAbbrev ym.2 ++ " " ++ toString ym.1,
        purchases := purchases, sales := sales, expenses := expenses,
        profit := sales - purchases - expenses })

/-- One entry of the `top-buyers` response. -/
structure TopBuyerStat where
  buyer_name : String
  outstanding_amount : ℚ
deriving DecidableEq, Repr

/-- The comparison `sort(key=outstanding_amount, reverse=True)` uses:
`a` may come before `b` exactly when `a`'s amount is at least `b`'s. -/
def topBuyerOrd (a b : TopBuyerStat) : Prop :=
  b.outstanding_amount ≤ a.outstanding_amount

instance : DecidableRel topBuyerOrd :=
  fun a b => inferInstanceAs (Decidable (_ ≤ _))

instance : IsTotal TopBuyerStat topBuyerOrd :=
  ⟨fun a b => le_total b.outstanding_amount a.outstanding_amount⟩

instance : IsTrans TopBuyerStat topBuyerOrd :=
  ⟨fun _ _ _ h1 h2 => le_trans h2 h1⟩

/-- Embeds `get_top_buyers` (`routers/analytics.py`): compute each buyer's
outstanding balance inline, keep those with a positive balance, sort by
outstanding amount descending (Python's stable sort with `reverse=True`),
and return the first `limit` entries. -/
def get_top_buyers (db : DB) (limit : Nat) : List TopBuyerStat :=
  let buyer_stats := db.buyers.filterMap (fun buyer =>
    let total_sales := sumBy (buyerSales db buyer.id) (fun s => s.total_amount)
    let total_payments := sumBy (buyerPayments db buyer.id) (fun p => p.amount)
    let outstanding := buyer.opening_balance + total_sales - total_payments
    if outstanding > 0 then
      some { buyer_name := buyer.name, outstanding_amount := outstanding }
    else
      none)
  (buyer_stats.insertionSort topBuyerOrd).take limit

/-- Concrete store for the C10 witness: one buyer, one credit sale of 100
with its item, no payments. -/
def saleUpdDB : DB :=
  { buyers := [⟨1, "A", none, none, none, 10⟩],
    purchases := [], sales := [⟨1, ⟨2025, 1, 5⟩, 1, .CREDIT, 0, 100, none⟩],
    sale_items := [⟨1, 1, 3, 10, "kg", 10, 100⟩], payments := [],
    expenses := [], nextPurchaseId := 1, nextSaleId := 2, nextSaleItemId := 2,
    nextPaymentId := 1, nextExpenseId := 1 }

/-- The C10 witness store after updating `payment_received_now` to 20. -/
def saleUpdDB' : DB :=
  { saleUpdDB with sales := [⟨1, ⟨2025, 1, 5⟩, 1, .CREDIT, 20, 100, none⟩] }

/-- Concrete store for the ledger witnesses: opening balance 10, a January
sale of 100, a February sale of 50, a January payment of 30. -/
def ledgerDB : DB :=
  { buyers := [⟨1, "A", none, none, none, 10⟩],
    purchases := [],
    sales := [⟨1, ⟨2025, 1, 5⟩, 1, .CREDIT, 0, 100, none⟩,
              ⟨2, ⟨2025, 2, 5⟩, 1, .CREDIT, 0, 50, none⟩],
    sale_items := [], payments := [⟨1, ⟨2025, 1, 20⟩, 1, 30, "Cash", none⟩],
    expenses := [], nextPurchaseId := 1, nextSaleId := 3, nextSaleItemId := 1,
    nextPaymentId := 2, nextExpenseId := 1 }

/-- The empty store. -/
def emptyDB : DB :=
  { buyers := [], purchases := [], sales := [], sale_items := [], payments := [],
    expenses := [], nextPurchaseId := 1, nextSaleId := 1, nextSaleItemId := 1,
    nextPaymentId := 1, nextExpenseId := 1 }

/-- The purchase request of the C4/C5 scenario: 10 units at 2 from "Acme"
with transport cost 50. -/
def acmePurchase : PurchaseCreate :=
  { date := ⟨2025, 3, 1⟩, seller_name := "Acme", seller_phone := none,
    pickup_location := none, transport_service := none, transport_cost := 50,
    quantity := 10, unit := "kg", price_per_unit := 2, notes := none }

/-- The sale request of the C6 scenario: items (qty 10 at 5) and
(qty 2 at 3) with 20 received now. -/
def demoSale : SaleCreate :=
  { date := ⟨2025, 3, 1⟩, buyer_id := 1, payment_type := .PARTIAL,
    payment_received_now := 20, notes := none,
    sale_items := [⟨7, 10, "kg", 5⟩, ⟨8, 2, "kg", 3⟩] }

/-- The stored "Acme" purchase of the C5 scenario. -/
def acmeP : Purchase :=
  ⟨1, ⟨2025, 3, 1⟩, "Acme", none, none, none, 50, 10, "kg", 2, 70, none⟩

/-- The linked Transport expense of the C5 scenario. -/
def acmeE : Expense :=
  ⟨1, ⟨2025, 3, 1⟩, .TRANSPORT, 50, some "Transport cost for purchase from Acme"⟩

/-- Store holding the "Acme" purchase and its linked Transport expense. -/
def acmeDB : DB :=
  { emptyDB with purchases := [acmeP], expenses := [acmeE],
                 nextPurchaseId := 2, nextExpenseId := 2 }

/-- The update request setting only `transport_cost` to 75. -/
def acmeUpd75 : PurchaseUpdate :=
  ⟨none, none, none, none, none, some 75, none, none, none, none⟩

/-- Linearised month index: months elapsed since January of year 0. -/
def monthIdx (y m : Nat) : Nat := 12 * y + (m - 1)

/-- The calendar month `k` months before month `(y, m)`, by arithmetic on
the linearised index. -/
def monthSub (y m k : Nat) : Nat × Nat :=
  ((monthIdx y m - k) / 12, (monthIdx y m - k) % 12 + 1)

/-- Embeds `monthly-stats` row as the specification words it: sums grouped purely
by calendar year and month, with no window filter. -/
def monthPurchTotal (db : DB) (y m : Nat) : ℚ :=
  sumBy (db.purchases.filter (fun p => p.date.year == y && p.date.month == m))
    (fun p => p.total_purchase_cost)

/-- Month-grouped sale total (specification wording). -/
def monthSaleTotal (db : DB) (y m : Nat) : ℚ :=
  sumBy (db.sales.filter (fun s => s.date.year == y && s.date.month == m))
    (fun s => s.total_amount)

/-- Month-grouped expense total (specification wording). -/
def monthExpTotal (db : DB) (y m : Nat) : ℚ :=
  sumBy (db.expenses.filter (fun e => e.date.year == y && e.date.month == m))
    (fun e => e.amount)

/-- The `monthly-stats` row the specification describes for month `(y, m)`:
month-grouped sums, profit as their difference, and the
abbreviated-month + year label. -/
def monthlyRowSpec (db : DB) (y m : Nat) : MonthlyRow :=
  { month := monthAbbrev m ++ " " ++ toString y,
    purchases := monthPurchTotal db y m,
    sales := monthSaleTotal db y m,
    expenses := monthExpTotal db y m,
    profit := monthSaleTotal db y m - monthPurchTotal db y m - monthExpTotal db y m }

/-- Store with one January-2026 purchase of total cost 5. -/
def janDB : DB :=
  { emptyDB with
    purchases := [⟨1, ⟨2026, 1, 7⟩, "S", none, none, none, 0, 1, "kg", 5, 5, none⟩],
    nextPurchaseId := 2 }

/-- Store with two buyers of equal positive opening balance. -/
def tieDB : DB :=
  { emptyDB with
    buyers := [⟨1, "A", none, none, none, 5⟩, ⟨2, "B", none, none, none, 5⟩] }

/-- Store with buyers at outstanding balances 5, 5, −2 and 9. -/
def topDB : DB :=
  { emptyDB with
    buyers := [⟨1, "A", none, none, none, 5⟩, ⟨2, "B", none, none, none, 5⟩,
               ⟨3, "C", none, none, none, -2⟩, ⟨4, "D", none, none, none, 9⟩] }

theorem Date.ble_total (a b : Date) : a.ble b = true ∨ b.ble a = true := by
  simp only [Date.ble, Bool.or_eq_true, Bool.and_eq_true, decide_eq_true_eq, beq_iff_eq]
  omega

theorem Date.ble_trans {a b c : Date} (h1 : a.ble b = true) (h2 : b.ble c = true) :
    a.ble c = true := by
  simp only [Date.ble, Bool.or_eq_true, Bool.and_eq_true, decide_eq_true_eq, beq_iff_eq] at *
  omega

/-! ### Helper lemmas -/

@[simp]
theorem sumBy_nil (f : α → ℚ) : sumBy [] f = 0 := rfl

@[simp]
theorem sumBy_cons (a : α) (l : List α) (f : α → ℚ) :
    sumBy (a :: l) f = f a + sumBy l f := by
  simp [sumBy]

@[simp]
theorem sumBy_append (l1 l2 : List α) (f : α → ℚ) :
    sumBy (l1 ++ l2) f = sumBy l1 f + sumBy l2 f := by
  simp [sumBy]

theorem sumBy_perm {l1 l2 : List α} (h : l1.Perm l2) (f : α → ℚ) :
    sumBy l1 f = sumBy l2 f :=
  (h.map f).sum_eq

theorem sumBy_insertionSort (r : α → α → Prop) [DecidableRel r] (l : List α) (f : α → ℚ) :
    sumBy (l.insertionSort r) f = sumBy l f :=
  sumBy_perm (l.perm_insertionSort r) f

/-- The running-balance loop ends at the seed plus the net of all folded
transactions. -/
theorem buildEntries_getLast_balance :
    ∀ (ts : List Txn) (bal : ℚ) (e : LedgerEntry),
      (buildEntries bal ts).getLast? = some e →
      e.balance = bal + sumBy ts (fun t => t.debit - t.credit)
  | [], _, _, h => by simp [buildEntries] at h
  | [t], bal, e, h => by
    simp only [buildEntries, List.getLast?_singleton, Option.some.injEq] at h
    subst h
    simp
    ring
  | t :: t' :: ts, bal, e, h => by
    rw [buildEntries, buildEntries, List.getLast?_cons_cons, ← buildEntries] at h
    have ih := buildEntries_getLast_balance (t' :: ts) (bal + t.debit - t.credit) e h
    rw [ih]
    simp
    ring

theorem startsWithL_append (p t : List Char) : startsWithL p (p ++ t) = true := by
  induction p with
  | nil => simp [startsWithL]
  | cons c cs ih => simp [startsWithL, ih]

theorem containsL_append (a p t : List Char) : containsL p (a ++ p ++ t) = true := by
  induction a with
  | nil =>
    cases p with
    | nil =>
      cases t with
      | nil => simp [containsL, List.isEmpty]
      | cons x xs => simp [containsL, startsWithL]
    | cons c cs =>
      simp only [List.nil_append, containsL, List.append_eq]
      rw [show c :: (cs ++ t) = (c :: cs) ++ t from rfl, startsWithL_append (c :: cs) t]
      simp
  | cons c cs ih =>
    simp only [List.cons_append, containsL, List.append_eq] at ih ⊢
    rw [ih]
    simp

theorem strContains_append (a p t : String) : strContains (a ++ p ++ t) p = true := by
  simp only [strContains, String.data_append]
  exact containsL_append a.data p.data t.data

/-- Embeds `find? p l = some a` splits `l` at the first match; `updateFirst` maps
exactly that element and `removeFirst` drops exactly that element. -/
theorem find?_split {p : α → Bool} :
    ∀ {l : List α} {a : α}, l.find? p = some a →
      ∃ pre post, l = pre ++ a :: post ∧ (∀ x ∈ pre, p x = false) ∧ p a = true ∧
        (∀ f, updateFirst p f l = pre ++ f a :: post) ∧
        removeFirst p l = pre ++ post
  | [], a, h => by simp [List.find?] at h
  | x :: xs, a, h => by
    by_cases hx : p x = true
    · rw [List.find?_cons_of_pos _ hx] at h
      cases h
      exact ⟨[], xs, by simp, by simp, hx, fun f => by simp [updateFirst, hx],
        by simp [removeFirst, hx]⟩
    · rw [List.find?_cons_of_neg _ hx] at h
      obtain ⟨pre, post, hsplit, hpre, ha, hupd, hrem⟩ := find?_split h
      refine ⟨x :: pre, post, by simp [hsplit], ?_, ha, fun f => ?_, ?_⟩
      · intro y hy
        rcases List.mem_cons.mp hy with rfl | hy
        · exact eq_false_of_ne_true hx
        · exact hpre y hy
      · simp [updateFirst, hx, hupd f]
      · simp [removeFirst, hx, hrem]

/-- Every entry of `get_top_buyers` comes from a buyer of the store, carries
that buyer's recomputed outstanding balance, and is strictly positive. -/
theorem mem_top_buyers {db : DB} {k : Nat} {e : TopBuyerStat}
    (he : e ∈ get_top_buyers db k) :
    ∃ b ∈ db.buyers, e.buyer_name = b.name ∧
      e.outstanding_amount = Buyer.outstanding_balance db b ∧
      0 < e.outstanding_amount := by
  unfold get_top_buyers at he
  have h1 := List.mem_of_mem_take he
  rw [List.mem_insertionSort] at h1
  obtain ⟨b, hb, hfb⟩ := List.mem_filterMap.mp h1
  by_cases hpos : (0 : ℚ) <
      b.opening_balance + sumBy (buyerSales db b.id) (fun s => s.total_amount)
        - sumBy (buyerPayments db b.id) (fun p => p.amount)
  · rw [if_pos hpos] at hfb
    cases hfb
    exact ⟨b, hb, rfl, rfl, hpos⟩
  · rw [if_neg hpos] at hfb
    cases hfb

/-- C1: for every buyer, at every point in time, the outstanding balance is
`opening_balance + Σ sale.total_amount − Σ payment.amount` over all of that
buyer's sales and payments, and each reporting site — the model property
behind buyer detail views, the buyers list, the dashboard receivable total
and the top-buyers entries — computes exactly this value on read. -/
theorem outstanding_balance_invariant (db : DB) (b : Buyer) (today : Date) (k : Nat)
    (hb : b ∈ db.buyers) :
    Buyer.outstanding_balance db b =
      b.opening_balance +
        sumBy (db.sales.filter (fun s => s.buyer_id == b.id)) (fun s => s.total_amount) -
        sumBy (db.payments.filter (fun p => p.buyer_id == b.id)) (fun p => p.amount) ∧
    get_buyers_list db = (sortBuyersByName db.buyers).map (fun x =>
      { id := x.id, name := x.name, phone := x.phone,
        outstanding_balance := Buyer.outstanding_balance db x }) ∧
    (get_dashboard_summary db today).total_receivable =
      (db.buyers.map (fun x => Buyer.outstanding_balance db x)).sum ∧
    (∀ e ∈ get_top_buyers db k, ∃ x ∈ db.buyers,
      e.outstanding_amount = Buyer.outstanding_balance db x) := by
  refine ⟨rfl, rfl, rfl, ?_⟩
  intro e he
  obtain ⟨x, hx, _, hout, _⟩ := mem_top_buyers he
  exact ⟨x, hx, hout⟩

/-- Witness for C1 at a concrete store. -/
theorem outstanding_balance_invariant_w :
    Buyer.outstanding_balance
        { buyers := [⟨1, "A", none, none, none, 10⟩],
          purchases := [], sales := [⟨1, ⟨2025, 1, 5⟩, 1, .CREDIT, 0, 100, none⟩],
          sale_items := [], payments := [⟨1, ⟨2025, 1, 20⟩, 1, 30, "Cash", none⟩],
          expenses := [], nextPurchaseId := 2, nextSaleId := 2, nextSaleItemId := 1,
          nextPaymentId := 2, nextExpenseId := 1 }
        ⟨1, "A", none, none, none, 10⟩ = 80 ∧
    (get_dashboard_summary
        { buyers := [⟨1, "A", none, none, none, 10⟩],
          purchases := [], sales := [⟨1, ⟨2025, 1, 5⟩, 1, .CREDIT, 0, 100, none⟩],
          sale_items := [], payments := [⟨1, ⟨2025, 1, 20⟩, 1, 30, "Cash", none⟩],
          expenses := [], nextPurchaseId := 2, nextSaleId := 2, nextSaleItemId := 1,
          nextPaymentId := 2, nextExpenseId := 1 }
        ⟨2025, 2, 1⟩).total_receivable = 80 := by
  have h := outstanding_balance_invariant
    { buyers := [⟨1, "A", none, none, none, 10⟩],
      purchases := [], sales := [⟨1, ⟨2025, 1, 5⟩, 1, .CREDIT, 0, 100, none⟩],
      sale_items := [], payments := [⟨1, ⟨2025, 1, 20⟩, 1, 30, "Cash", none⟩],
      expenses := [], nextPurchaseId := 2, nextSaleId := 2, nextSaleItemId := 1,
      nextPaymentId := 2, nextExpenseId := 1 }
    ⟨1, "A", none, none, none, 10⟩ ⟨2025, 2, 1⟩ 10 (by decide)
  refine ⟨?_, ?_⟩
  · rw [h.1]; norm_num [sumBy]
  · rw [h.2.2.1]
    norm_num [Buyer.outstanding_balance, Buyer.total_sales, Buyer.total_payments,
      sumBy, buyerSales, buyerPayments]

/-- C9: deleting a buyer that has at least one sale or payment fails with a
conflict and returns the store unchanged (rejected before any mutation);
deleting a nonexistent buyer fails with not-found and changes nothing. -/
theorem delete_buyer_rejections (db : DB) (bid : Nat) :
    (∀ b, get_buyer db bid = some b →
      (buyerSales db b.id ≠ [] ∨ buyerPayments db b.id ≠ []) →
      delete_buyer db bid = (db, .conflict)) ∧
    (get_buyer db bid = none → delete_buyer db bid = (db, .notFound)) := by
  constructor
  · intro b hfind hne
    unfold delete_buyer
    rw [show db.buyers.find? (fun x => x.id == bid) = some b from hfind]
    have hcond : (!(buyerSales db b.id).isEmpty || !(buyerPayments db b.id).isEmpty) = true := by
      rcases hne with h | h
      · cases hs : buyerSales db b.id with
        | nil => exact absurd hs h
        | cons x xs => simp [hs]
      · cases hp : buyerPayments db b.id with
        | nil => exact absurd hp h
        | cons x xs => simp [hp]
    simp [hcond]
  · intro hfind
    unfold delete_buyer
    rw [show db.buyers.find? (fun x => x.id == bid) = none from hfind]

/-- Witness for C9: conflict on a buyer with one sale, not-found on id 2. -/
theorem delete_buyer_rejections_w :
    delete_buyer
      { buyers := [⟨1, "A", none, none, none, 0⟩],
        purchases := [], sales := [⟨1, ⟨2025, 1, 5⟩, 1, .CREDIT, 0, 100, none⟩],
        sale_items := [], payments := [], expenses := [], nextPurchaseId := 1,
        nextSaleId := 2, nextSaleItemId := 1, nextPaymentId := 1, nextExpenseId := 1 }
      1 =
    ({ buyers := [⟨1, "A", none, none, none, 0⟩],
       purchases := [], sales := [⟨1, ⟨2025, 1, 5⟩, 1, .CREDIT, 0, 100, none⟩],
       sale_items := [], payments := [], expenses := [], nextPurchaseId := 1,
       nextSaleId := 2, nextSaleItemId := 1, nextPaymentId := 1, nextExpenseId := 1 },
     .conflict) ∧
    delete_buyer
      { buyers := [⟨1, "A", none, none, none, 0⟩],
        purchases := [], sales := [⟨1, ⟨2025, 1, 5⟩, 1, .CREDIT, 0, 100, none⟩],
        sale_items := [], payments := [], expenses := [], nextPurchaseId := 1,
        nextSaleId := 2, nextSaleItemId := 1, nextPaymentId := 1, nextExpenseId := 1 }
      2 =
    ({ buyers := [⟨1, "A", none, none, none, 0⟩],
       purchases := [], sales := [⟨1, ⟨2025, 1, 5⟩, 1, .CREDIT, 0, 100, none⟩],
       sale_items := [], payments := [], expenses := [], nextPurchaseId := 1,
       nextSaleId := 2, nextSaleItemId := 1, nextPaymentId := 1, nextExpenseId := 1 },
     .notFound) :=
  ⟨(delete_buyer_rejections _ 1).1 ⟨1, "A", none, none, none, 0⟩ (by decide)
      (Or.inl (by decide)),
   (delete_buyer_rejections _ 2).2 (by decide)⟩

/-- Replacing one list element by another with the same filter-key and the
same summed value leaves a filtered sum unchanged. -/
theorem sumBy_filter_middle (pre post : List α) (a a1 : α) (q : α → Bool) (f : α → ℚ)
    (hq : q a1 = q a) (hf : f a1 = f a) :
    sumBy ((pre ++ a1 :: post).filter q) f = sumBy ((pre ++ a :: post).filter q) f := by
  rw [List.filter_append, List.filter_append, List.filter_cons, List.filter_cons, hq]
  cases hqa : q a <;> simp [hf]

/-- C10: updating a sale touches only the supplied scalar fields of that
sale row: `total_amount` is never recomputed, no sale item or payment (or
any other table) is created, modified or deleted, and when `buyer_id` is
not part of the update every buyer's outstanding balance is unchanged. -/
theorem update_sale_frame (db : DB) (sid : Nat) (u : SaleUpdate) (db' : DB) (s1 : Sale)
    (h : update_sale db sid u = some (db', s1)) :
    db'.sale_items = db.sale_items ∧ db'.payments = db.payments ∧
    db'.buyers = db.buyers ∧ db'.purchases = db.purchases ∧ db'.expenses = db.expenses ∧
    (∃ s pre post,
      db.sales.find? (fun t => t.id == sid) = some s ∧
      db.sales = pre ++ s :: post ∧ db'.sales = pre ++ s1 :: post ∧
      s1.total_amount = s.total_amount ∧
      (u.date = none → s1.date = s.date) ∧
      (u.buyer_id = none → s1.buyer_id = s.buyer_id) ∧
      (u.payment_type = none → s1.payment_type = s.payment_type) ∧
      (u.payment_received_now = none → s1.payment_received_now = s.payment_received_now) ∧
      (u.notes = none → s1.notes = s.notes)) ∧
    (u.buyer_id = none →
      ∀ b, Buyer.outstanding_balance db' b = Buyer.outstanding_balance db b) := by
  unfold update_sale at h
  cases hfind : db.sales.find? (fun t => t.id == sid) with
  | none => rw [hfind] at h; cases h
  | some s =>
    rw [hfind] at h
    simp only [Option.some.injEq, Prod.mk.injEq] at h
    obtain ⟨hdb', hs1⟩ := h
    subst hs1
    subst hdb'
    obtain ⟨pre, post, hsplit, _, _, hupd, _⟩ := find?_split hfind
    refine ⟨rfl, rfl, rfl, rfl, rfl,
      ⟨s, pre, post, rfl, hsplit, hupd _, rfl, ?_, ?_, ?_, ?_, ?_⟩, ?_⟩
    · intro hd; simp [applySaleUpdate, hd]
    · intro hd; simp [applySaleUpdate, hd]
    · intro hd; simp [applySaleUpdate, hd]
    · intro hd; simp [applySaleUpdate, hd]
    · intro hd; simp [applySaleUpdate, hd]
    · intro hbid b
      unfold Buyer.outstanding_balance Buyer.total_sales Buyer.total_payments
        buyerSales buyerPayments
      have hqeq : ((applySaleUpdate s u).buyer_id == b.id) = (s.buyer_id == b.id) := by
        simp [applySaleUpdate, hbid]
      rw [hupd (fun _ => applySaleUpdate s u), hsplit,
        sumBy_filter_middle pre post s (applySaleUpdate s u)
          (fun t => t.buyer_id == b.id) (fun t => t.total_amount) hqeq rfl]

/-- Witness for C10: changing `payment_received_now` from 0 to 20 on an
existing sale leaves items, payments, `total_amount` and the buyer's
outstanding balance untouched. -/
theorem update_sale_frame_w :
    update_sale saleUpdDB 1 ⟨none, none, none, some 20, none⟩ =
      some (saleUpdDB', ⟨1, ⟨2025, 1, 5⟩, 1, .CREDIT, 20, 100, none⟩) ∧
    saleUpdDB'.sale_items = saleUpdDB.sale_items ∧
    saleUpdDB'.payments = saleUpdDB.payments ∧
    (⟨1, ⟨2025, 1, 5⟩, 1, .CREDIT, 20, 100, none⟩ : Sale).total_amount = 100 ∧
    Buyer.outstanding_balance saleUpdDB' ⟨1, "A", none, none, none, 10⟩ =
      Buyer.outstanding_balance saleUpdDB ⟨1, "A", none, none, none, 10⟩ := by
  have h := update_sale_frame saleUpdDB 1 ⟨none, none, none, some 20, none⟩
    saleUpdDB' ⟨1, ⟨2025, 1, 5⟩, 1, .CREDIT, 20, 100, none⟩ (by decide)
  exact ⟨by decide, h.1, h.2.1, by decide, h.2.2.2.2.2.2 rfl _⟩

theorem sumBy_map (l : List α) (g : α → β) (f : β → ℚ) :
    sumBy (l.map g) f = sumBy l (fun a => f (g a)) := by
  simp [sumBy, List.map_map]; rfl

theorem sumBy_congr {l : List α} {f g : α → ℚ} (h : ∀ a ∈ l, f a = g a) :
    sumBy l f = sumBy l g := by
  induction l with
  | nil => rfl
  | cons a as ih =>
    rw [sumBy_cons, sumBy_cons, h a (List.mem_cons_self a as),
      ih (fun x hx => h x (List.mem_cons_of_mem a hx))]

theorem sumBy_zero_sub (l : List α) (f : α → ℚ) :
    sumBy l (fun a => 0 - f a) = -(sumBy l f) := by
  induction l with
  | nil => simp
  | cons a as ih => rw [sumBy_cons, sumBy_cons, ih]; ring

@[simp]
theorem inRange_none (d : Date) : inRange d none none = true := rfl

theorem sumBy_saleTxn (S : List Sale) :
    sumBy (S.map mkSaleTxn) (fun t => t.debit - t.credit) =
      sumBy S (fun s => s.total_amount) := by
  induction S with
  | nil => rfl
  | cons a as ih => simp [mkSaleTxn, ih]

theorem sumBy_payTxn (P : List Payment) :
    sumBy (P.map mkPayTxn) (fun t => t.debit - t.credit) =
      -(sumBy P (fun p => p.amount)) := by
  induction P with
  | nil => simp
  | cons a as ih =>
    rw [List.map_cons, sumBy_cons, sumBy_cons, ih]
    show (0 : ℚ) - a.amount + -sumBy as (fun p => p.amount) = _
    ring

/-- Core ledger facts: the reported opening balance is the found buyer's,
the closing balance is the global opening balance plus the range-filtered
sums, the last running balance always equals the closing balance, and a
buyer with no transactions in range yields no entries. -/
theorem ledger_spec (db : DB) (bid : Nat) (sd ed : Option Date) (b : Buyer)
    (resp : BuyerLedgerResponse)
    (hfind : db.buyers.find? (fun x => x.id == bid) = some b)
    (h : get_buyer_ledger db bid sd ed = some resp) :
    resp.opening_balance = b.opening_balance ∧
    resp.closing_balance = b.opening_balance +
      sumBy ((buyerSales db bid).filter (fun s => inRange s.date sd ed))
        (fun s => s.total_amount) -
      sumBy ((buyerPayments db bid).filter (fun p => inRange p.date sd ed))
        (fun p => p.amount) ∧
    (∀ e, resp.entries.getLast? = some e → e.balance = resp.closing_balance) ∧
    ((buyerSales db bid).filter (fun s => inRange s.date sd ed) = [] →
      (buyerPayments db bid).filter (fun p => inRange p.date sd ed) = [] →
      resp.entries = []) := by
  unfold get_buyer_ledger at h
  rw [hfind] at h
  simp only [Option.some.injEq] at h
  subst h
  refine ⟨rfl, ?_, ?_, ?_⟩
  · simp only
    rw [sumBy_insertionSort, sumBy_insertionSort]
  · intro e he
    simp only at he ⊢
    rw [buildEntries_getLast_balance _ _ _ he]
    rw [sumBy_insertionSort, sumBy_append, sumBy_saleTxn, sumBy_payTxn]
    ring
  · intro hs hp
    simp only
    rw [hs, hp]
    rfl

/-- C2: for every existing buyer, the unfiltered ledger's last running
balance equals the buyer's current outstanding balance, and a buyer with no
sales and no payments gets an empty entry list with
`closing_balance = opening_balance`. -/
theorem ledger_ends_at_outstanding (db : DB) (bid : Nat) (b : Buyer)
    (h : get_buyer db bid = some b) :
    ∃ resp, get_buyer_ledger db bid none none = some resp ∧
      (∀ e, resp.entries.getLast? = some e →
        e.balance = Buyer.outstanding_balance db b) ∧
      (buyerSales db b.id = [] → buyerPayments db b.id = [] →
        resp.entries = [] ∧ resp.closing_balance = b.opening_balance) := by
  have hfind : db.buyers.find? (fun x => x.id == bid) = some b := h
  have hid : b.id = bid := by simpa using List.find?_some hfind
  obtain ⟨resp, hresp⟩ : ∃ r, get_buyer_ledger db bid none none = some r := by
    unfold get_buyer_ledger
    rw [hfind]
    exact ⟨_, rfl⟩
  obtain ⟨hop, hcl, hlast, hemp⟩ := ledger_spec db bid none none b resp hfind hresp
  refine ⟨resp, hresp, ?_, ?_⟩
  · intro e he
    rw [hlast e he, hcl]
    simp only [inRange_none, List.filter_true]
    rw [← hid]
    rfl
  · intro hs hp
    rw [hid] at hs hp
    have h1 : (buyerSales db bid).filter (fun s => inRange s.date none none) = [] := by
      rw [hs]; rfl
    have h2 : (buyerPayments db bid).filter (fun p => inRange p.date none none) = [] := by
      rw [hp]; rfl
    refine ⟨hemp h1 h2, ?_⟩
    rw [hcl, h1, h2]
    simp

/-- Witness for C2: the outstanding balance of the one-sale store evaluates
to 110 and the unfiltered ledger ends there. -/
theorem ledger_ends_at_outstanding_w :
    Buyer.outstanding_balance saleUpdDB ⟨1, "A", none, none, none, 10⟩ = 110 ∧
    (∃ resp, get_buyer_ledger saleUpdDB 1 none none = some resp ∧
      (∀ e, resp.entries.getLast? = some e →
        e.balance = Buyer.outstanding_balance saleUpdDB ⟨1, "A", none, none, none, 10⟩) ∧
      (buyerSales saleUpdDB 1 = [] → buyerPayments saleUpdDB 1 = [] →
        resp.entries = [] ∧ resp.closing_balance = (10 : ℚ))) :=
  ⟨by norm_num [Buyer.outstanding_balance, Buyer.total_sales, Buyer.total_payments,
      sumBy, buyerSales, buyerPayments, saleUpdDB],
   ledger_ends_at_outstanding saleUpdDB 1 ⟨1, "A", none, none, none, 10⟩ (by decide)⟩

/-- C3 counterexample: the claimed divergence between the last running
balance and the returned closing balance can never occur — the running
balance is seeded from the same global opening balance that the closing
balance uses, and both range over exactly the filtered transactions. -/
theorem ledger_closing_never_diverges :
    ¬ ∃ (db : DB) (bid : Nat) (sd ed : Option Date)
        (resp : BuyerLedgerResponse) (e : LedgerEntry),
      get_buyer_ledger db bid sd ed = some resp ∧
      resp.entries.getLast? = some e ∧ e.balance ≠ resp.closing_balance := by
  rintro ⟨db, bid, sd, ed, resp, e, h, he, hne⟩
  cases hfind : db.buyers.find? (fun x => x.id == bid) with
  | none =>
    unfold get_buyer_ledger at h
    rw [hfind] at h
    cases h
  | some b => exact hne ((ledger_spec db bid sd ed b resp hfind h).2.2.1 e he)

/-- C3 (amended): the returned `closing_balance` is the buyer's global
`opening_balance` plus the range-filtered sale and payment sums, and it
always coincides with the last returned entry's running balance, because
that running balance is seeded from the same global opening balance. -/
theorem ledger_closing_mixes_global_opening (db : DB) (bid : Nat) (sd ed : Option Date)
    (resp : BuyerLedgerResponse) (h : get_buyer_ledger db bid sd ed = some resp) :
    (∃ b, db.buyers.find? (fun x => x.id == bid) = some b ∧
      resp.opening_balance = b.opening_balance ∧
      resp.closing_balance = b.opening_balance +
        sumBy ((buyerSales db bid).filter (fun s => inRange s.date sd ed))
          (fun s => s.total_amount) -
        sumBy ((buyerPayments db bid).filter (fun p => inRange p.date sd ed))
          (fun p => p.amount)) ∧
    (∀ e, resp.entries.getLast? = some e → e.balance = resp.closing_balance) := by
  cases hfind : db.buyers.find? (fun x => x.id == bid) with
  | none =>
    unfold get_buyer_ledger at h
    rw [hfind] at h
    cases h
  | some b =>
    obtain ⟨hop, hcl, hlast, _⟩ := ledger_spec db bid sd ed b resp hfind h
    exact ⟨⟨b, rfl, hop, hcl⟩, hlast⟩

/-- Witness for C3 (amended): restricting the ledger to February excludes
the January sale and payment; the closing balance evaluates to
`10 + 50 - 0 = 60` and still matches the last entry's running balance. -/
theorem ledger_closing_mixes_global_opening_w :
    ∃ resp, get_buyer_ledger ledgerDB 1 (some ⟨2025, 2, 1⟩) (some ⟨2025, 3, 1⟩) =
        some resp ∧
      (∀ e, resp.entries.getLast? = some e → e.balance = resp.closing_balance) ∧
      resp.closing_balance = 60 := by
  obtain ⟨resp, hresp⟩ :
      ∃ r, get_buyer_ledger ledgerDB 1 (some ⟨2025, 2, 1⟩) (some ⟨2025, 3, 1⟩) = some r := by
    unfold get_buyer_ledger
    rw [show ledgerDB.buyers.find? (fun x => x.id == 1) =
      some ⟨1, "A", none, none, none, 10⟩ from by decide]
    exact ⟨_, rfl⟩
  have h := ledger_closing_mixes_global_opening ledgerDB 1
    (some ⟨2025, 2, 1⟩) (some ⟨2025, 3, 1⟩) resp hresp
  obtain ⟨b, hfind, hop, hcl⟩ := h.1
  rw [show ledgerDB.buyers.find? (fun x => x.id == 1) =
    some ⟨1, "A", none, none, none, 10⟩ from by decide] at hfind
  cases hfind
  refine ⟨resp, hresp, h.2, ?_⟩
  rw [hcl]
  norm_num [buyerSales, buyerPayments, inRange, Date.ble, sumBy, ledgerDB]

/-- A string assembled as `a ++ p ++ t` contains `p` as a substring. -/
theorem strContains_of_parts (s p a t : String)
    (h : s.data = a.data ++ p.data ++ t.data) : strContains s p = true := by
  unfold strContains
  rw [h]
  exact containsL_append _ _ _

/-- The generated transport-expense description contains the
`"purchase from {seller_name}"` fragment used by the linker's lookup. -/
theorem strContains_transportDesc (s : String) (svc : Option String) :
    strContains (transportDesc s svc) ("purchase from " ++ s) = true := by
  apply strContains_of_parts _ _ "Transport cost for "
    (match svc with | some v => " (" ++ v ++ ")" | none => "")
  simp only [transportDesc, String.data_append]
  simp [List.append_assoc]

/-- C4: a created purchase stores
`total_purchase_cost = quantity * price_per_unit + transport_cost`, and
exactly one Transport expense — dated at the purchase's date, with amount
`transport_cost` and a description containing
`"purchase from {seller_name}"` — is created iff `transport_cost > 0`. -/
theorem create_purchase_spec (db : DB) (pc : PurchaseCreate) :
    (create_purchase db pc).2.total_purchase_cost =
      pc.quantity * pc.price_per_unit + pc.transport_cost ∧
    (create_purchase db pc).1.purchases = db.purchases ++ [(create_purchase db pc).2] ∧
    (0 < pc.transport_cost →
      ∃ e, (create_purchase db pc).1.expenses = db.expenses ++ [e] ∧
        e.category = ExpenseCategory.TRANSPORT ∧ e.date = pc.date ∧
        e.amount = pc.transport_cost ∧
        ∃ d, e.description = some d ∧
          strContains d ("purchase from " ++ pc.seller_name) = true) ∧
    (¬ 0 < pc.transport_cost → (create_purchase db pc).1.expenses = db.expenses) := by
  by_cases hc : (0 : ℚ) < pc.transport_cost
  · refine ⟨?_, ?_, ?_, ?_⟩
    · simp [create_purchase, hc]
    · simp [create_purchase, hc]
    · intro _
      refine ⟨{ id := db.nextExpenseId, date := pc.date,
                category := ExpenseCategory.TRANSPORT, amount := pc.transport_cost,
                description := some (transportDesc pc.seller_name pc.transport_service) },
        by simp [create_purchase, hc], rfl, rfl, rfl,
        transportDesc pc.seller_name pc.transport_service, rfl,
        strContains_transportDesc _ _⟩
    · intro hn; exact absurd hc hn
  · refine ⟨?_, ?_, ?_, ?_⟩
    · simp [create_purchase, hc]
    · simp [create_purchase, hc]
    · intro hp; exact absurd hp hc
    · intro _; simp [create_purchase, hc]

/-- Witness for C4: the "Acme" purchase with transport cost 50 stores a
total cost of 70 and spawns exactly one Transport expense of 50 whose
description contains "purchase from Acme". -/
theorem create_purchase_spec_w :
    (create_purchase emptyDB acmePurchase).2.total_purchase_cost = 70 ∧
    ∃ e, (create_purchase emptyDB acmePurchase).1.expenses = [e] ∧
      e.category = ExpenseCategory.TRANSPORT ∧ e.amount = 50 ∧
      ∃ d, e.description = some d ∧
        strContains d ("purchase from " ++ "Acme") = true := by
  have h := create_purchase_spec emptyDB acmePurchase
  refine ⟨by rw [h.1]; norm_num [acmePurchase], ?_⟩
  obtain ⟨e, he, hcat, _, hamt, d, hd, hcont⟩ := h.2.2.1 (by norm_num [acmePurchase])
  refine ⟨e, by rw [he]; rfl, hcat, by rw [hamt]; norm_num [acmePurchase], d, hd, ?_⟩
  exact hcont

theorem enum_map_snd_eq (l : List α) (f : α → β) :
    l.enum.map (fun x => f x.2) = l.map f := by
  rw [show (fun (x : Nat × α) => f x.2) = (f ∘ Prod.snd) from rfl,
    ← List.map_map, List.enum_map_snd]

/-- C6: a created sale stores `total_amount = Σ quantity * price_per_unit`
over its submitted items, inserts one `SaleItem` row per submitted item
with `total_price = quantity * price_per_unit` and the new sale's id, and
creates a `Payment` with the sale's date, buyer and amount
`payment_received_now` iff `payment_received_now > 0`. -/
theorem create_sale_spec (db : DB) (sc : SaleCreate) :
    (create_sale db sc).2.total_amount =
      sumBy sc.sale_items (fun it => it.quantity * it.price_per_unit) ∧
    (create_sale db sc).1.sales = db.sales ++ [(create_sale db sc).2] ∧
    (∃ new, (create_sale db sc).1.sale_items = db.sale_items ++ new ∧
      new.length = sc.sale_items.length ∧
      new.map (fun it =>
          (it.sale_id, it.product_type_id, it.quantity, it.price_per_unit, it.total_price)) =
        sc.sale_items.map (fun it =>
          ((create_sale db sc).2.id, it.product_type_id, it.quantity, it.price_per_unit,
            it.quantity * it.price_per_unit))) ∧
    (0 < sc.payment_received_now →
      ∃ pay, (create_sale db sc).1.payments = db.payments ++ [pay] ∧
        pay.date = sc.date ∧ pay.buyer_id = sc.buyer_id ∧
        pay.amount = sc.payment_received_now) ∧
    (¬ 0 < sc.payment_received_now → (create_sale db sc).1.payments = db.payments) := by
  by_cases hc : (0 : ℚ) < sc.payment_received_now
  · refine ⟨?_, ?_, ?_, ?_, ?_⟩
    · simp [create_sale, hc]
    · simp [create_sale, hc]
    · have hid : (create_sale db sc).2.id = db.nextSaleId := by simp [create_sale, hc]
      refine ⟨_, by simp [create_sale, hc]; rfl, by simp [create_sale, hc], ?_⟩
      rw [List.map_map, hid]
      exact enum_map_snd_eq sc.sale_items (fun it =>
        (db.nextSaleId, it.product_type_id, it.quantity, it.price_per_unit,
          it.quantity * it.price_per_unit))
    · intro _
      refine ⟨{ id := db.nextPaymentId, date := sc.date, buyer_id := sc.buyer_id,
                amount := sc.payment_received_now, payment_method := "Cash",
                notes := some ("Payment for Sale #" ++ toString db.nextSaleId) },
        by simp [create_sale, hc], rfl, rfl, rfl⟩
    · intro hn; exact absurd hc hn
  · refine ⟨?_, ?_, ?_, ?_, ?_⟩
    · simp [create_sale, hc]
    · simp [create_sale, hc]
    · have hid : (create_sale db sc).2.id = db.nextSaleId := by simp [create_sale, hc]
      refine ⟨_, by simp [create_sale, hc]; rfl, by simp [create_sale, hc], ?_⟩
      rw [List.map_map, hid]
      exact enum_map_snd_eq sc.sale_items (fun it =>
        (db.nextSaleId, it.product_type_id, it.quantity, it.price_per_unit,
          it.quantity * it.price_per_unit))
    · intro hp; exact absurd hp hc
    · intro _; simp [create_sale, hc]

/-- Witness for C6: the demo sale totals 56, its two item rows carry total
prices 50 and 6, and a payment of 20 is spawned. -/
theorem create_sale_spec_w :
    (create_sale emptyDB demoSale).2.total_amount = 56 ∧
    (create_sale emptyDB demoSale).1.sale_items.map (fun it => it.total_price) =
      [50, 6] ∧
    ∃ pay, (create_sale emptyDB demoSale).1.payments = [pay] ∧ pay.amount = 20 := by
  have h := create_sale_spec emptyDB demoSale
  refine ⟨by rw [h.1]; norm_num [demoSale, sumBy], ?_, ?_⟩
  · norm_num [create_sale, demoSale, emptyDB, sumBy, List.enum, List.enumFrom]
  · obtain ⟨pay, hp, _, _, hamt⟩ := h.2.2.2.1 (by norm_num [demoSale])
    exact ⟨pay, by rw [hp]; rfl, by rw [hamt]; rfl⟩

/-- Embeds `total_purchase_cost` after an update: re-derived exactly when
quantity, price or transport cost is supplied, untouched otherwise. -/
theorem applyPurchaseUpdate_total (p : Purchase) (u : PurchaseUpdate) :
    ((u.quantity ≠ none ∨ u.price_per_unit ≠ none ∨ u.transport_cost ≠ none) →
      (applyPurchaseUpdate p u).total_purchase_cost =
        (u.quantity.getD p.quantity) * (u.price_per_unit.getD p.price_per_unit) +
          (u.transport_cost.getD p.transport_cost)) ∧
    (u.quantity = none → u.price_per_unit = none → u.transport_cost = none →
      (applyPurchaseUpdate p u).total_purchase_cost = p.total_purchase_cost) := by
  constructor
  · intro h
    have hcond :
        (u.quantity.isSome || u.price_per_unit.isSome || u.transport_cost.isSome) = true := by
      rcases h with h | h | h
      · cases hq : u.quantity with
        | none => exact absurd hq h
        | some v => simp [hq]
      · cases hq : u.price_per_unit with
        | none => exact absurd hq h
        | some v => simp [hq]
      · cases hq : u.transport_cost with
        | none => exact absurd hq h
        | some v => simp [hq]
    simp [applyPurchaseUpdate, hcond]
  · intro h1 h2 h3
    simp [applyPurchaseUpdate, h1, h2, h3]

/-- C5: on purchase update the expense linker acts only when the update
touches `transport_cost`; `total_purchase_cost` is re-derived exactly when
quantity, price or transport cost is supplied; and the linker policy table
holds, looking up the first Transport expense matching the *updated*
purchase's date and seller name: update it in place when the new cost is
positive, delete it when the new cost is 0, create a fresh one when none is
found and the new cost is positive, and do nothing when none is found and
the new cost is 0. -/
theorem update_purchase_spec (db : DB) (pid : Nat) (u : PurchaseUpdate)
    (p : Purchase) (db' : DB) (p1 : Purchase)
    (hfind : db.purchases.find? (fun q => q.id == pid) = some p)
    (hres : update_purchase db pid u = some (db', p1)) :
    p1 = applyPurchaseUpdate p u ∧
    ((u.quantity ≠ none ∨ u.price_per_unit ≠ none ∨ u.transport_cost ≠ none) →
      p1.total_purchase_cost =
        (u.quantity.getD p.quantity) * (u.price_per_unit.getD p.price_per_unit) +
          (u.transport_cost.getD p.transport_cost)) ∧
    (u.quantity = none → u.price_per_unit = none → u.transport_cost = none →
      p1.total_purchase_cost = p.total_purchase_cost) ∧
    (u.transport_cost = none → db'.expenses = db.expenses) ∧
    (∀ t, u.transport_cost = some t →
      (∀ e0, db.expenses.find? (linkedExpenseMatch p1.date p1.seller_name) = some e0 →
        (0 < t →
          ∃ pre post, db.expenses = pre ++ e0 :: post ∧
            db'.expenses = pre ++
              { e0 with amount := t,
                        description :=
                          some (transportDesc p1.seller_name p1.transport_service) } :: post) ∧
        (t = 0 →
          ∃ pre post, db.expenses = pre ++ e0 :: post ∧ db'.expenses = pre ++ post)) ∧
      (db.expenses.find? (linkedExpenseMatch p1.date p1.seller_name) = none →
        (0 < t → ∃ e, db'.expenses = db.expenses ++ [e] ∧
          e.date = p1.date ∧ e.category = ExpenseCategory.TRANSPORT ∧ e.amount = t ∧
          e.description = some (transportDesc p1.seller_name p1.transport_service)) ∧
        (t = 0 → db'.expenses = db.expenses))) := by
  unfold update_purchase at hres
  rw [hfind] at hres
  have hp1 : p1 = applyPurchaseUpdate p u := by
    cases hu : u.transport_cost with
    | none =>
      rw [hu] at hres
      simp only [Option.some.injEq, Prod.mk.injEq] at hres
      exact hres.2.symm
    | some t =>
      rw [hu] at hres
      simp only at hres
      split at hres <;>
        [skip; skip] <;>
        split at hres <;>
          (simp only [Option.some.injEq, Prod.mk.injEq] at hres; exact hres.2.symm)
  subst hp1
  refine ⟨rfl, (applyPurchaseUpdate_total p u).1, (applyPurchaseUpdate_total p u).2, ?_, ?_⟩
  · intro hn
    rw [hn] at hres
    simp only [Option.some.injEq, Prod.mk.injEq] at hres
    obtain ⟨hdb', -⟩ := hres
    subst hdb'
    rfl
  · intro t ht
    rw [ht] at hres
    simp only at hres
    cases hfe : db.expenses.find?
        (linkedExpenseMatch (applyPurchaseUpdate p u).date
          (applyPurchaseUpdate p u).seller_name) with
    | some e0 =>
      rw [hfe] at hres
      simp only at hres
      obtain ⟨pre, post, hsplit, -, -, hupd, hrem⟩ := find?_split hfe
      split at hres
      · rename_i hpos
        simp only [Option.some.injEq, Prod.mk.injEq] at hres
        obtain ⟨hdb', -⟩ := hres
        subst hdb'
        refine ⟨?_, ?_⟩
        · intro e1 he1
          injection he1 with he1'
          subst he1'
          exact ⟨fun _ => ⟨pre, post, hsplit, hupd _⟩,
            fun h0 => absurd hpos (by rw [h0]; simp)⟩
        · intro hnone
          cases hnone
      · rename_i hpos
        simp only [Option.some.injEq, Prod.mk.injEq] at hres
        obtain ⟨hdb', -⟩ := hres
        subst hdb'
        refine ⟨?_, ?_⟩
        · intro e1 he1
          injection he1 with he1'
          subst he1'
          exact ⟨fun h => (hpos h).elim, fun _ => ⟨pre, post, hsplit, hrem⟩⟩
        · intro hnone
          cases hnone
    | none =>
      rw [hfe] at hres
      simp only at hres
      split at hres
      · rename_i hpos
        simp only [Option.some.injEq, Prod.mk.injEq] at hres
        obtain ⟨hdb', -⟩ := hres
        subst hdb'
        refine ⟨?_, ?_⟩
        · intro e1 he1
          cases he1
        · intro _
          exact ⟨fun _ => ⟨_, rfl, rfl, rfl, rfl, rfl⟩,
            fun h0 => absurd hpos (by rw [h0]; simp)⟩
      · rename_i hpos
        simp only [Option.some.injEq, Prod.mk.injEq] at hres
        obtain ⟨hdb', -⟩ := hres
        subst hdb'
        refine ⟨?_, ?_⟩
        · intro e1 he1
          cases he1
        · intro _
          exact ⟨fun h => (hpos h).elim, fun _ => rfl⟩

/-- Embeds `update_purchase` succeeds whenever the purchase exists. -/
theorem update_purchase_isSome (db : DB) (pid : Nat) (u : PurchaseUpdate) (p : Purchase)
    (hfind : db.purchases.find? (fun q => q.id == pid) = some p) :
    ∃ pr, update_purchase db pid u = some pr := by
  unfold update_purchase
  rw [hfind]
  cases u.transport_cost with
  | none => exact ⟨_, rfl⟩
  | some t =>
    simp only
    cases db.expenses.find?
        (linkedExpenseMatch (applyPurchaseUpdate p u).date
          (applyPurchaseUpdate p u).seller_name) with
    | some e0 =>
      simp only
      by_cases hp : t > 0
      · rw [if_pos hp]; exact ⟨_, rfl⟩
      · rw [if_neg hp]; exact ⟨_, rfl⟩
    | none =>
      simp only
      by_cases hp : t > 0
      · rw [if_pos hp]; exact ⟨_, rfl⟩
      · rw [if_neg hp]; exact ⟨_, rfl⟩

/-- Witness for C5: updating the Acme purchase's transport cost to 75
re-derives `total_purchase_cost = 95` and updates the same linked expense's
amount in place — the expenses table still holds exactly one row. -/
theorem update_purchase_spec_w :
    ∃ db' p1, update_purchase acmeDB 1 acmeUpd75 = some (db', p1) ∧
      p1.total_purchase_cost = 95 ∧
      db'.expenses = [{ id := 1, date := ⟨2025, 3, 1⟩,
                        category := ExpenseCategory.TRANSPORT, amount := 75,
                        description := some (transportDesc "Acme" none) }] := by
  obtain ⟨⟨db', p1⟩, hres⟩ := update_purchase_isSome acmeDB 1 acmeUpd75 acmeP (by decide)
  have h := update_purchase_spec acmeDB 1 acmeUpd75 acmeP db' p1 (by decide) hres
  refine ⟨db', p1, hres, ?_, ?_⟩
  · rw [h.2.1 (Or.inr (Or.inr (by decide)))]
    norm_num [acmeUpd75, acmeP]
  · have hfe75 : acmeDB.expenses.find?
        (linkedExpenseMatch p1.date p1.seller_name) = some acmeE := by
      rw [h.1]; decide
    have hpol := (h.2.2.2.2 75 (by decide)).1 acmeE hfe75
    obtain ⟨pre, post, hsplit, hexp⟩ := hpol.1 (by norm_num)
    have hpre : pre = [] ∧ acmeE :: post = [acmeE] := by
      cases pre with
      | nil => exact ⟨rfl, by simpa [acmeDB, acmeE, emptyDB] using hsplit.symm⟩
      | cons a as =>
        have hlen := congrArg List.length hsplit
        simp [acmeDB, emptyDB] at hlen
    obtain ⟨hpre0, hpost0⟩ := hpre
    have hpost : post = [] := by injection hpost0
    subst hpre0
    subst hpost
    rw [hexp]
    have hsn : p1.seller_name = "Acme" := by rw [h.1]; decide
    have hts : p1.transport_service = none := by rw [h.1]; decide
    rw [hsn, hts]
    rfl

/-- The month-decrement loop of `get_monthly_stats` produces exactly the
arithmetic month subtraction, newest first. -/
theorem monthListRev_eq : ∀ (n y m : Nat), 1 ≤ m → m ≤ 12 → n ≤ monthIdx y m + 1 →
    monthListRev y m n = (List.range n).map (monthSub y m)
  | 0, _, _, _, _, _ => by simp [monthListRev]
  | n + 1, y, m, h1, h2, h3 => by
    rw [monthListRev, List.range_succ_eq_map, List.map_cons, List.map_map]
    have hidx : monthIdx y m = 12 * y + (m - 1) := rfl
    congr 1
    · unfold monthSub monthIdx
      rw [Prod.mk.injEq]
      constructor <;> omega
    · by_cases hm : m = 1
      · subst hm
        rw [if_pos (by simp)]
        rw [monthListRev_eq n (y - 1) 12 (by omega) (by omega)
          (by unfold monthIdx at h3 ⊢; omega)]
        apply List.map_congr_left
        intro k hk
        rw [List.mem_range] at hk
        unfold Function.comp monthSub monthIdx
        unfold monthIdx at h3
        rw [Prod.mk.injEq]
        constructor <;> omega
      · rw [if_neg (by simpa using hm)]
        rw [monthListRev_eq n y (m - 1) (by omega) (by omega)
          (by unfold monthIdx at h3 ⊢; omega)]
        apply List.map_congr_left
        intro k hk
        rw [List.mem_range] at hk
        unfold Function.comp monthSub monthIdx
        unfold monthIdx at h3
        rw [Prod.mk.injEq]
        constructor <;> omega

/-- For dates with `1 ≤ day`, the window filter `date >= first of the
oldest listed month` is redundant once the date's year and month match a
listed month. -/
theorem monthFilter_eq (Y M n k : Nat) (hk : k ≤ n) (d : Date) (hd : 1 ≤ d.day) :
    (Date.ble ⟨(monthSub Y M n).1, (monthSub Y M n).2, 1⟩ d &&
      (d.year == (monthSub Y M k).1) && (d.month == (monthSub Y M k).2)) =
    ((d.year == (monthSub Y M k).1) && (d.month == (monthSub Y M k).2)) := by
  cases hy : (d.year == (monthSub Y M k).1) with
  | false => simp [hy]
  | true =>
    cases hmm : (d.month == (monthSub Y M k).2) with
    | false => simp [hy, hmm]
    | true =>
      have hy' : d.year = (monthSub Y M k).1 := by simpa using hy
      have hm' : d.month = (monthSub Y M k).2 := by simpa using hmm
      have hble : Date.ble ⟨(monthSub Y M n).1, (monthSub Y M n).2, 1⟩ d = true := by
        simp only [Date.ble, Bool.or_eq_true, Bool.and_eq_true, decide_eq_true_eq,
          beq_iff_eq]
        unfold monthSub monthIdx at hy' hm' ⊢
        omega
      simp [hy, hmm, hble]

theorem getElem_cons_rev_range_map (f : Nat → α) (n i : Nat)
    (h : i < (f n :: ((List.range n).map f).reverse).length) :
    (f n :: ((List.range n).map f).reverse)[i] = f (n - i) := by
  cases i with
  | zero => simp
  | succ j =>
    rw [List.getElem_cons_succ, List.getElem_reverse, List.getElem_map,
      List.getElem_range]
    congr 1
    simp only [List.length_cons, List.length_reverse, List.length_map,
      List.length_range] at h
    simp only [List.length_map, List.length_range]
    omega

/-- C7: for every `months` parameter N in 1–24, `monthly-stats` returns
exactly N rows, one per calendar month for the N most recent months ending
at the current month, oldest first; each row carries the month-grouped
purchase/sale/expense sums (0 when no records exist),
`profit = sales − purchases − expenses`, and the abbreviated-month plus
4-digit-year label. -/
theorem monthly_stats_spec (db : DB) (today : Date) (N : Nat)
    (hm1 : 1 ≤ today.month) (hm2 : today.month ≤ 12)
    (hy1 : 1002 ≤ today.year) (hy2 : today.year ≤ 9999)
    (hN1 : 1 ≤ N) (hN2 : N ≤ 24)
    (hvp : ∀ p ∈ db.purchases, 1 ≤ p.date.day)
    (hvs : ∀ s ∈ db.sales, 1 ≤ s.date.day)
    (hve : ∀ e ∈ db.expenses, 1 ≤ e.date.day) :
    (get_monthly_stats db today N).length = N ∧
    ∀ (i : Nat) (hi : i < (get_monthly_stats db today N).length),
      (get_monthly_stats db today N).get ⟨i, hi⟩ =
        monthlyRowSpec db (monthSub today.year today.month (N - 1 - i)).1
          (monthSub today.year today.month (N - 1 - i)).2 ∧
      1 ≤ (monthSub today.year today.month (N - 1 - i)).2 ∧
      (monthSub today.year today.month (N - 1 - i)).2 ≤ 12 ∧
      1000 ≤ (monthSub today.year today.month (N - 1 - i)).1 ∧
      (monthSub today.year today.month (N - 1 - i)).1 ≤ 9999 := by
  obtain ⟨n, rfl⟩ : ∃ n, N = n + 1 := ⟨N - 1, by omega⟩
  have hml : monthListRev today.year today.month (n + 1) =
      (List.range (n + 1)).map (monthSub today.year today.month) :=
    monthListRev_eq _ _ _ hm1 hm2 (by unfold monthIdx; omega)
  have hshape : (monthListRev today.year today.month (n + 1)).reverse =
      monthSub today.year today.month n ::
        ((List.range n).map (monthSub today.year today.month)).reverse := by
    rw [hml, List.range_succ, List.map_append]
    simp
  unfold get_monthly_stats
  rw [hshape]
  simp only
  constructor
  · simp
  · intro i hi
    simp only [List.length_cons, List.length_map, List.length_reverse,
      List.length_range] at hi
    rw [List.get_eq_getElem, List.getElem_map, getElem_cons_rev_range_map]
    have hNi : n + 1 - 1 - i = n - i := by omega
    rw [hNi]
    have hki : n - i ≤ n := by omega
    refine ⟨?_, ?_, ?_, ?_, ?_⟩
    · show MonthlyRow.mk _ _ _ _ _ = _
      unfold monthlyRowSpec monthPurchTotal monthSaleTotal monthExpTotal
      rw [List.filter_congr (fun p hp =>
          monthFilter_eq today.year today.month n (n - i) hki p.date (hvp p hp)),
        List.filter_congr (fun s hs =>
          monthFilter_eq today.year today.month n (n - i) hki s.date (hvs s hs)),
        List.filter_congr (fun e he =>
          monthFilter_eq today.year today.month n (n - i) hki e.date (hve e he))]
    · unfold monthSub monthIdx
      omega
    · unfold monthSub monthIdx
      omega
    · unfold monthSub monthIdx
      omega
    · unfold monthSub monthIdx
      omega

/-- Witness for C7: `monthly-stats(months=2)` in February 2026 yields two
rows, and the January row carries the purchase sum 5 with profit −5. -/
theorem monthly_stats_spec_w :
    (get_monthly_stats janDB ⟨2026, 2, 15⟩ 2).length = 2 ∧
    (∀ hi : 0 < (get_monthly_stats janDB ⟨2026, 2, 15⟩ 2).length,
      (get_monthly_stats janDB ⟨2026, 2, 15⟩ 2).get ⟨0, hi⟩ =
        monthlyRowSpec janDB 2026 1) ∧
    monthlyRowSpec janDB 2026 1 =
      { month := "Jan 2026", purchases := 5, sales := 0, expenses := 0,
        profit := -5 } := by
  have h := monthly_stats_spec janDB ⟨2026, 2, 15⟩ 2 (by norm_num) (by norm_num)
    (by norm_num) (by norm_num) (by norm_num) (by norm_num)
    (by decide) (by decide) (by decide)
  refine ⟨h.1, fun hi => ?_, ?_⟩
  · have h2 := (h.2 0 hi).1
    rw [h2, show (monthSub 2026 2 (2 - 1 - 0)).1 = 2026 from by decide,
      show (monthSub 2026 2 (2 - 1 - 0)).2 = 1 from by decide]
  · rw [show monthlyRowSpec janDB 2026 1 =
      { month := monthAbbrev 1 ++ " " ++ toString 2026,
        purchases := monthPurchTotal janDB 2026 1,
        sales := monthSaleTotal janDB 2026 1,
        expenses := monthExpTotal janDB 2026 1,
        profit := monthSaleTotal janDB 2026 1 - monthPurchTotal janDB 2026 1 -
          monthExpTotal janDB 2026 1 } from rfl]
    norm_num [monthPurchTotal, monthSaleTotal, monthExpTotal, sumBy, janDB, emptyDB,
      monthAbbrev]
    decide

/-- C8 (amended): for every limit K, `top-buyers` keeps only buyers with a
strictly positive recomputed outstanding balance, returns at most K
entries, and the entries are sorted in non-increasing (not necessarily
strictly decreasing) order of outstanding balance; Python's stable sort
keeps buyers with equal balances in retrieval order. -/
theorem top_buyers_spec (db : DB) (k : Nat) (hk1 : 1 ≤ k) (hk2 : k ≤ 50) :
    (get_top_buyers db k).length ≤ k ∧
    (∀ e ∈ get_top_buyers db k, 0 < e.outstanding_amount ∧
      ∃ b ∈ db.buyers, e.buyer_name = b.name ∧
        e.outstanding_amount = Buyer.outstanding_balance db b) ∧
    (get_top_buyers db k).Pairwise
      (fun a b => b.outstanding_amount ≤ a.outstanding_amount) := by
  refine ⟨?_, ?_, ?_⟩
  · unfold get_top_buyers
    simp
  · intro e he
    obtain ⟨b, hb, hname, hout, hpos⟩ := mem_top_buyers he
    exact ⟨hpos, b, hb, hname, hout⟩
  · unfold get_top_buyers
    exact ((List.sorted_insertionSort topBuyerOrd _).sublist
      (List.take_sublist _ _))

/-- C8 counterexample: with two buyers at the same positive outstanding
balance, the returned list is not sorted strictly descending — equal
balances appear in retrieval order. -/
theorem top_buyers_not_strictly_descending :
    ¬ (get_top_buyers tieDB 10).Pairwise
        (fun a b => a.outstanding_amount > b.outstanding_amount) := by
  intro hp
  have hev : get_top_buyers tieDB 10 = [⟨"A", 5⟩, ⟨"B", 5⟩] := by
    norm_num [get_top_buyers, tieDB, emptyDB, buyerSales, buyerPayments, sumBy,
      topBuyerOrd, List.insertionSort, List.orderedInsert]
  rw [hev] at hp
  have h55 := (List.pairwise_cons.mp hp).1 ⟨"B", 5⟩ (by simp)
  norm_num at h55

/-- Witness for C8 (amended): the negative-balance buyer is excluded and
the rest appear in non-increasing order, ties in retrieval order. -/
theorem top_buyers_spec_w :
    get_top_buyers topDB 10 = [⟨"D", 9⟩, ⟨"A", 5⟩, ⟨"B", 5⟩] ∧
    (get_top_buyers topDB 10).length ≤ 10 ∧
    (∀ e ∈ get_top_buyers topDB 10, 0 < e.outstanding_amount ∧
      ∃ b ∈ topDB.buyers, e.buyer_name = b.name ∧
        e.outstanding_amount = Buyer.outstanding_balance topDB b) ∧
    (get_top_buyers topDB 10).Pairwise
      (fun a b => b.outstanding_amount ≤ a.outstanding_amount) := by
  have h := top_buyers_spec topDB 10 (by norm_num) (by norm_num)
  refine ⟨?_, h.1, h.2.1, h.2.2⟩
  norm_num [get_top_buyers, topDB, emptyDB, buyerSales, buyerPayments, sumBy,
    topBuyerOrd, List.insertionSort, List.orderedInsert]

end KP
